import Mathlib

/-!
Verification of the forestui worktree-management core against its design
specification.  Python strings are modelled as lists of characters
(`PyStr`); every operation below is a direct translation of the
corresponding function in `src/forestui`.
-/

set_option maxHeartbeats 1000000

namespace Forestui

/-- Python strings are modelled as lists of Unicode code points. -/
abbrev PyStr := List Char

/-- The character list underlying a Lean string literal. -/
def lit (s : String) : PyStr := s.data

/-- Whitespace test used by Python's `str.strip`. -/
def isSpaceChar (c : Char) : Bool := c.isWhitespace

/-- Python `str.strip()`: drop leading and trailing whitespace. -/
def pyStrip (s : PyStr) : PyStr :=
  ((s.dropWhile isSpaceChar).reverse.dropWhile isSpaceChar).reverse

/-- Python `str.startswith(pre)`. -/
def pyStartswith : PyStr → PyStr → Bool
  | [], _ => true
  | _ :: _, [] => false
  | p :: ps, c :: cs => p == c && pyStartswith ps cs

/-- Python `str.split(sep)` for a one-character separator: splits at every
occurrence, keeping empty pieces (`"".split` gives `[""]`). -/
def splitOnChar (sep : Char) : PyStr → List PyStr
  | [] => [[]]
  | c :: rest =>
    if c = sep then [] :: splitOnChar sep rest
    else
      match splitOnChar sep rest with
      | [] => [[c]]
      | l :: ls => (c :: l) :: ls

/-- Python `str.split("\n")`. -/
def splitLines (s : PyStr) : List PyStr := splitOnChar '\n' s

/-- Does `pat` occur as a contiguous subsequence of the string? -/
def containsSeq (pat : PyStr) : PyStr → Bool
  | [] => pat.isEmpty
  | c :: rest => pyStartswith pat (c :: rest) || containsSeq pat rest

/-- The fully-qualified branch ref namespace `refs/heads/`. -/
def refsHeadsStr : PyStr := lit "refs/heads/"

/-- Python `s.replace("refs/heads/", "")`: remove every (left-to-right,
non-overlapping) occurrence of `refs/heads/`. -/
def replaceRefsHeads (s : PyStr) : PyStr :=
  match s with
  | [] => []
  | c :: rest =>
    if pyStartswith refsHeadsStr (c :: rest) then
      replaceRefsHeads (List.drop 11 (c :: rest))
    else c :: replaceRefsHeads rest
termination_by s.length
decreasing_by
  · simp only [List.length_drop, List.length_cons]; omega
  · simp

/-- `services/git.py`: `WorktreeInfo` — one record of the porcelain
worktree listing; `branch = none` represents a detached worktree. -/
structure WorktreeInfo where
  path : PyStr
  head : PyStr
  branch : Option PyStr
deriving DecidableEq, Repr

/-- Python truthiness of an optional string (`None` and `""` are falsy). -/
def truthyStr : Option PyStr → Bool
  | none => false
  | some s => !s.isEmpty

/-- Line label `worktree ` of the porcelain listing. -/
def wtLinePre : PyStr := lit "worktree "

/-- Line label `HEAD ` of the porcelain listing. -/
def headLinePre : PyStr := lit "HEAD "

/-- Line label `branch ` of the porcelain listing. -/
def branchLinePre : PyStr := lit "branch "

/-- Emit the pending record, exactly when both its path and head are set
and non-empty (the parser's `if current_path and current_head`). -/
def flushGroup (cp ch cb : Option PyStr) : List WorktreeInfo :=
  if truthyStr cp && truthyStr ch then [⟨cp.getD [], ch.getD [], cb⟩] else []

/-- The stateful line scan of `GitService.list_worktrees`
(`services/git.py` lines 256–288): state is the pending record's
path, head and branch. -/
def scanWorktrees : List PyStr → Option PyStr → Option PyStr → Option PyStr →
    List WorktreeInfo
  | [], cp, ch, cb => flushGroup cp ch cb
  | l :: rest, cp, ch, cb =>
    if pyStartswith wtLinePre (pyStrip l) then
      flushGroup cp ch cb ++
        scanWorktrees rest (some (List.drop 9 (pyStrip l))) none none
    else if pyStartswith headLinePre (pyStrip l) then
      scanWorktrees rest cp (some (List.drop 5 (pyStrip l))) cb
    else if pyStartswith branchLinePre (pyStrip l) then
      scanWorktrees rest cp ch (some (replaceRefsHeads (List.drop 7 (pyStrip l))))
    else if (pyStrip l).isEmpty && truthyStr cp && truthyStr ch then
      flushGroup cp ch cb ++ scanWorktrees rest none none none
    else
      scanWorktrees rest cp ch cb

/-- `GitService.list_worktrees`: parse the porcelain listing text (the
command's stdout, already stripped by `_run_git`) into records. -/
def list_worktrees (stdout : PyStr) : List WorktreeInfo :=
  scanWorktrees (splitLines stdout) none none none

/-! Specification-side description of a well-formed porcelain listing:
each record is rendered as a `worktree`/`HEAD`/optional fully-qualified
`branch` line group, groups separated by blank lines, no trailing blank
line.  These definitions follow the spec's wording (§4.2), not the code. -/

/-- A field of a well-formed listing record: non-empty, single-line, and
not ending in whitespace (so line stripping cannot alter it). -/
def cleanField (s : PyStr) : Prop :=
  s ≠ [] ∧ '\n' ∉ s ∧ isSpaceChar (s.reverse.headD ' ') = false

instance (s : PyStr) : Decidable (cleanField s) := by unfold cleanField; infer_instance

/-- A well-formed listing record: clean path and head; if a branch is
present it is clean and its short name does not itself contain the
`refs/heads/` qualifier (so normalization recovers it exactly). -/
def wfGroup (g : WorktreeInfo) : Prop :=
  cleanField g.path ∧ cleanField g.head ∧
    ∀ b, g.branch = some b → cleanField b ∧ containsSeq refsHeadsStr b = false

instance (g : WorktreeInfo) : Decidable (wfGroup g) := by
  unfold wfGroup; infer_instance

/-- The lines of one rendered listing group; a detached record has no
`branch` line, a branch-carrying record renders the fully-qualified ref. -/
def renderGroup (g : WorktreeInfo) : List PyStr :=
  (wtLinePre ++ g.path) :: (headLinePre ++ g.head) ::
    (match g.branch with
     | some b => [branchLinePre ++ (refsHeadsStr ++ b)]
     | none => [])

/-- Lines of a whole rendered listing: groups separated by blank lines,
with no trailing blank line after the final group. -/
def renderLines : List WorktreeInfo → List PyStr
  | [] => []
  | [g] => renderGroup g
  | g :: g2 :: gs => renderGroup g ++ ([] :: renderLines (g2 :: gs))

/-- Join lines with newline separators (inverse of `splitLines` on
newline-free lines). -/
def joinLines : List PyStr → PyStr
  | [] => []
  | [l] => l
  | l :: l2 :: ls => l ++ '\n' :: joinLines (l2 :: ls)

/-- A whole well-formed porcelain listing text. -/
def renderListing (gs : List WorktreeInfo) : PyStr := joinLines (renderLines gs)

/-! Basic facts about the Python string primitives. -/

theorem pyStartswith_append : ∀ p t : PyStr, pyStartswith p (p ++ t) = true
  | [], _ => rfl
  | c :: p, t => by simp [pyStartswith, pyStartswith_append p t]

theorem pyStartswith_cons_ne (a b : Char) (p s : PyStr) (h : ¬a = b) :
    pyStartswith (a :: p) (b :: s) = false := by
  simp [pyStartswith, h]

theorem dropWhile_cons_of_neg (p : Char → Bool) (c : Char) (t : PyStr)
    (h : p c = false) : (c :: t).dropWhile p = c :: t := by
  simp [List.dropWhile_cons, h]

theorem pyStrip_eq_self (s : PyStr) (hne : s ≠ [])
    (h1 : isSpaceChar (s.headD ' ') = false)
    (h2 : isSpaceChar (s.reverse.headD ' ') = false) : pyStrip s = s := by
  obtain ⟨c, t, rfl⟩ := List.exists_cons_of_ne_nil hne
  unfold pyStrip
  rw [dropWhile_cons_of_neg _ _ _ (by simpa using h1)]
  obtain ⟨d, u, hd⟩ := List.exists_cons_of_ne_nil (l := (c :: t).reverse) (by simp)
  rw [hd]
  rw [hd] at h2
  rw [dropWhile_cons_of_neg _ _ _ (by simpa using h2), ← hd, List.reverse_reverse]

theorem pyStrip_label_append (pre s : PyStr) (hpre : pre ≠ [])
    (hpc : isSpaceChar (pre.headD ' ') = false) (hs : s ≠ [])
    (h2 : isSpaceChar (s.reverse.headD ' ') = false) :
    pyStrip (pre ++ s) = pre ++ s := by
  apply pyStrip_eq_self
  · simp [hpre]
  · obtain ⟨c, t, rfl⟩ := List.exists_cons_of_ne_nil hpre
    simpa using hpc
  · rw [List.reverse_append]
    obtain ⟨d, u, hd⟩ := List.exists_cons_of_ne_nil (l := s.reverse)
      (by simpa using hs)
    rw [hd]
    rw [hd] at h2
    simpa using h2

theorem splitOnChar_of_not_mem (sep : Char) :
    ∀ l : PyStr, sep ∉ l → splitOnChar sep l = [l]
  | [], _ => rfl
  | c :: t, h => by
    have hc : ¬c = sep := fun e => h (e ▸ List.mem_cons_self c t)
    have ht := splitOnChar_of_not_mem sep t (fun m => h (List.mem_cons_of_mem _ m))
    simp [splitOnChar, hc, ht]

theorem splitOnChar_append_sep (sep : Char) :
    ∀ l t : PyStr, sep ∉ l →
      splitOnChar sep (l ++ sep :: t) = l :: splitOnChar sep t
  | [], t, _ => by simp [splitOnChar]
  | c :: l, t, h => by
    have hc : ¬c = sep := fun e => h (e ▸ List.mem_cons_self c l)
    have ih := splitOnChar_append_sep sep l t (fun m => h (List.mem_cons_of_mem _ m))
    simp [splitOnChar, hc, ih]

theorem splitLines_joinLines :
    ∀ ls : List PyStr, ls ≠ [] → (∀ l ∈ ls, '\n' ∉ l) →
      splitLines (joinLines ls) = ls
  | [], hne, _ => absurd rfl hne
  | [l], _, h => by
    simp only [joinLines, splitLines]
    exact splitOnChar_of_not_mem _ l (h l (by simp))
  | l :: l2 :: ls, _, h => by
    have ih := splitLines_joinLines (l2 :: ls) (by simp)
      (fun x hx => h x (List.mem_cons_of_mem _ hx))
    simp only [joinLines, splitLines] at ih ⊢
    rw [splitOnChar_append_sep _ l _ (h l (by simp)), ih]

theorem containsSeq_cons_false (pat : PyStr) (c : Char) (t : PyStr)
    (h : containsSeq pat (c :: t) = false) :
    pyStartswith pat (c :: t) = false ∧ containsSeq pat t = false := by
  simpa [containsSeq] using h

theorem replaceRefsHeads_cons (c : Char) (t : PyStr) :
    replaceRefsHeads (c :: t) =
      if pyStartswith refsHeadsStr (c :: t) then
        replaceRefsHeads (List.drop 11 (c :: t))
      else c :: replaceRefsHeads t := by
  rw [replaceRefsHeads]

theorem replaceRefsHeads_of_not_contains :
    ∀ s : PyStr, containsSeq refsHeadsStr s = false → replaceRefsHeads s = s
  | [], _ => by rw [replaceRefsHeads]
  | c :: t, h => by
    obtain ⟨h1, h2⟩ := containsSeq_cons_false _ _ _ h
    rw [replaceRefsHeads_cons, if_neg (by simp [h1]),
      replaceRefsHeads_of_not_contains t h2]

theorem replaceRefsHeads_qualified (b : PyStr)
    (h : containsSeq refsHeadsStr b = false) :
    replaceRefsHeads (refsHeadsStr ++ b) = b := by
  have e : refsHeadsStr ++ b = 'r' :: (lit "efs/heads/" ++ b) := rfl
  rw [e, replaceRefsHeads_cons, if_pos (by exact pyStartswith_append refsHeadsStr b)]
  have e2 : List.drop 11 ('r' :: (lit "efs/heads/" ++ b)) = b := rfl
  rw [e2]
  exact replaceRefsHeads_of_not_contains b h

/-! Single-line behaviour of the scanner on each rendered line shape. -/

theorem truthyStr_some_of_ne (s : PyStr) (h : s ≠ []) : truthyStr (some s) = true := by
  cases s with
  | nil => exact absurd rfl h
  | cons c t => rfl

theorem flushGroup_none_left (ch cb : Option PyStr) : flushGroup none ch cb = [] := by
  simp [flushGroup, truthyStr]

theorem startswith_wt_headline (h : PyStr) :
    pyStartswith wtLinePre (headLinePre ++ h) = false := by
  show pyStartswith ('w' :: lit "orktree ") ('H' :: (lit "EAD " ++ h)) = false
  exact pyStartswith_cons_ne _ _ _ _ (by decide)

theorem startswith_wt_branchline (b : PyStr) :
    pyStartswith wtLinePre (branchLinePre ++ b) = false := by
  show pyStartswith ('w' :: lit "orktree ") ('b' :: (lit "ranch " ++ b)) = false
  exact pyStartswith_cons_ne _ _ _ _ (by decide)

theorem startswith_head_branchline (b : PyStr) :
    pyStartswith headLinePre (branchLinePre ++ b) = false := by
  show pyStartswith ('H' :: lit "EAD ") ('b' :: (lit "ranch " ++ b)) = false
  exact pyStartswith_cons_ne _ _ _ _ (by decide)

theorem reverse_headD_append (s t : PyStr) (ht : t ≠ []) :
    ((s ++ t).reverse).headD ' ' = t.reverse.headD ' ' := by
  rw [List.reverse_append]
  obtain ⟨d, u, hd⟩ := List.exists_cons_of_ne_nil (l := t.reverse)
    (by simpa using ht)
  rw [hd]
  simp

theorem scan_wt_line (p : PyStr) (hp : cleanField p) (rest : List PyStr)
    (cp ch cb : Option PyStr) :
    scanWorktrees ((wtLinePre ++ p) :: rest) cp ch cb =
      flushGroup cp ch cb ++ scanWorktrees rest (some p) none none := by
  obtain ⟨hne, _, hts⟩ := hp
  have hs : pyStrip (wtLinePre ++ p) = wtLinePre ++ p :=
    pyStrip_label_append _ _ (by decide) (by decide) hne hts
  rw [scanWorktrees, hs]
  simp only [pyStartswith_append, if_true]
  rfl

theorem scan_head_line (hstr : PyStr) (hh : cleanField hstr) (rest : List PyStr)
    (cp ch cb : Option PyStr) :
    scanWorktrees ((headLinePre ++ hstr) :: rest) cp ch cb =
      scanWorktrees rest cp (some hstr) cb := by
  obtain ⟨hne, _, hts⟩ := hh
  have hs : pyStrip (headLinePre ++ hstr) = headLinePre ++ hstr :=
    pyStrip_label_append _ _ (by decide) (by decide) hne hts
  rw [scanWorktrees, hs]
  simp only [startswith_wt_headline, pyStartswith_append, Bool.false_eq_true,
    if_false, if_true]
  rfl

theorem scan_branch_line (b : PyStr) (hb : cleanField b)
    (hnb : containsSeq refsHeadsStr b = false) (rest : List PyStr)
    (cp ch cb : Option PyStr) :
    scanWorktrees ((branchLinePre ++ (refsHeadsStr ++ b)) :: rest) cp ch cb =
      scanWorktrees rest cp ch (some b) := by
  have hsne : refsHeadsStr ++ b ≠ [] := by simp [refsHeadsStr, lit]
  have hts : isSpaceChar (((refsHeadsStr ++ b).reverse).headD ' ') = false := by
    rw [reverse_headD_append _ _ hb.1]
    exact hb.2.2
  have hs : pyStrip (branchLinePre ++ (refsHeadsStr ++ b)) =
      branchLinePre ++ (refsHeadsStr ++ b) :=
    pyStrip_label_append _ _ (by decide) (by decide) hsne hts
  rw [scanWorktrees, hs]
  simp only [startswith_wt_branchline, startswith_head_branchline,
    pyStartswith_append, Bool.false_eq_true, if_false, if_true]
  have e2 : List.drop 7 (branchLinePre ++ (refsHeadsStr ++ b)) = refsHeadsStr ++ b := rfl
  rw [e2, replaceRefsHeads_qualified b hnb]

theorem pyStrip_nil : pyStrip ([] : PyStr) = [] := rfl

theorem startswith_wt_nil : pyStartswith wtLinePre [] = false := by decide

theorem startswith_head_nil : pyStartswith headLinePre [] = false := by decide

theorem startswith_branch_nil : pyStartswith branchLinePre [] = false := by decide

theorem scan_blank_skip (rest : List PyStr) (cb : Option PyStr) :
    scanWorktrees ([] :: rest) none none cb = scanWorktrees rest none none cb := by
  rw [scanWorktrees]
  simp [pyStrip_nil, startswith_wt_nil, startswith_head_nil, startswith_branch_nil,
    truthyStr]

theorem scan_blank_emit (p h : PyStr) (hp : p ≠ []) (hh : h ≠ [])
    (rest : List PyStr) (cb : Option PyStr) :
    scanWorktrees ([] :: rest) (some p) (some h) cb =
      ⟨p, h, cb⟩ :: scanWorktrees rest none none none := by
  rw [scanWorktrees]
  simp [pyStrip_nil, startswith_wt_nil, startswith_head_nil, startswith_branch_nil,
    truthyStr_some_of_ne _ hp, truthyStr_some_of_ne _ hh, flushGroup]

theorem scan_end_emit (p h : PyStr) (hp : p ≠ []) (hh : h ≠ [])
    (cb : Option PyStr) :
    scanWorktrees [] (some p) (some h) cb = [⟨p, h, cb⟩] := by
  simp [scanWorktrees, flushGroup, truthyStr_some_of_ne _ hp,
    truthyStr_some_of_ne _ hh]

theorem scan_renderGroup (g : WorktreeInfo) (hg : wfGroup g) (rest : List PyStr)
    (cb0 : Option PyStr) :
    scanWorktrees (renderGroup g ++ rest) none none cb0 =
      scanWorktrees rest (some g.path) (some g.head) g.branch := by
  obtain ⟨hp, hh, hb⟩ := hg
  cases g with
  | mk path head branch =>
    cases branch with
    | none =>
      show scanWorktrees ((wtLinePre ++ path) :: (headLinePre ++ head) :: rest)
        none none cb0 = _
      rw [scan_wt_line path hp, scan_head_line head hh, flushGroup_none_left]
      rfl
    | some b =>
      obtain ⟨hcb, hnb⟩ := hb b rfl
      show scanWorktrees ((wtLinePre ++ path) :: (headLinePre ++ head) ::
        (branchLinePre ++ (refsHeadsStr ++ b)) :: rest) none none cb0 = _
      rw [scan_wt_line path hp, scan_head_line head hh,
        scan_branch_line b hcb hnb, flushGroup_none_left]
      rfl

theorem scan_renderLines_end :
    ∀ (gs : List WorktreeInfo) (cb0 : Option PyStr), (∀ g ∈ gs, wfGroup g) →
      scanWorktrees (renderLines gs) none none cb0 = gs
  | [], cb0, _ => by simp [renderLines, scanWorktrees, flushGroup, truthyStr]
  | [g], cb0, h => by
    have hg := h g (by simp)
    rw [renderLines, ← List.append_nil (renderGroup g),
      scan_renderGroup g hg [] cb0, scan_end_emit g.path g.head hg.1.1 hg.2.1.1]
  | g :: g2 :: gs, cb0, h => by
    have hg := h g (by simp)
    have ih := scan_renderLines_end (g2 :: gs) none
      (fun x hx => h x (List.mem_cons_of_mem _ hx))
    rw [renderLines, scan_renderGroup g hg _ cb0,
      scan_blank_emit g.path g.head hg.1.1 hg.2.1.1, ih]

theorem scan_renderLines_mid :
    ∀ (gs : List WorktreeInfo) (rest : List PyStr) (cb0 : Option PyStr),
      (∀ g ∈ gs, wfGroup g) → gs ≠ [] →
      scanWorktrees (renderLines gs ++ ([] :: rest)) none none cb0 =
        gs ++ scanWorktrees rest none none none
  | [], _, _, _, hne => absurd rfl hne
  | [g], rest, cb0, h, _ => by
    have hg := h g (by simp)
    rw [renderLines, scan_renderGroup g hg _ cb0,
      scan_blank_emit g.path g.head hg.1.1 hg.2.1.1]
    rfl
  | g :: g2 :: gs, rest, cb0, h, _ => by
    have hg := h g (by simp)
    have ih := scan_renderLines_mid (g2 :: gs) rest none
      (fun x hx => h x (List.mem_cons_of_mem _ hx)) (by simp)
    rw [renderLines, List.append_assoc, List.cons_append,
      scan_renderGroup g hg _ cb0,
      scan_blank_emit g.path g.head hg.1.1 hg.2.1.1, ih]
    rfl

theorem renderLines_ne_nil : ∀ gs : List WorktreeInfo, gs ≠ [] → renderLines gs ≠ []
  | [], h => absurd rfl h
  | [_], _ => by simp [renderLines, renderGroup]
  | _ :: _ :: _, _ => by simp [renderLines, renderGroup]

theorem renderGroup_no_newline (g : WorktreeInfo) (hg : wfGroup g) :
    ∀ l ∈ renderGroup g, '\n' ∉ l := by
  obtain ⟨hp, hh, hb⟩ := hg
  intro l hl
  cases g with
  | mk path head branch =>
    cases branch with
    | none =>
      simp only [renderGroup, List.mem_cons, List.not_mem_nil, or_false] at hl
      rcases hl with rfl | rfl
      · simp only [List.mem_append]
        rintro (hc | hc)
        · revert hc; decide
        · exact hp.2.1 hc
      · simp only [List.mem_append]
        rintro (hc | hc)
        · revert hc; decide
        · exact hh.2.1 hc
    | some b =>
      obtain ⟨hcb, _⟩ := hb b rfl
      simp only [renderGroup, List.mem_cons, List.not_mem_nil, or_false] at hl
      rcases hl with rfl | rfl | rfl
      · simp only [List.mem_append]
        rintro (hc | hc)
        · revert hc; decide
        · exact hp.2.1 hc
      · simp only [List.mem_append]
        rintro (hc | hc)
        · revert hc; decide
        · exact hh.2.1 hc
      · simp only [List.mem_append]
        rintro (hc | hc | hc)
        · revert hc; decide
        · revert hc; decide
        · exact hcb.2.1 hc

theorem renderLines_no_newline :
    ∀ gs : List WorktreeInfo, (∀ g ∈ gs, wfGroup g) →
      ∀ l ∈ renderLines gs, '\n' ∉ l
  | [], _, l, hl => by simp [renderLines] at hl
  | [g], h, l, hl =>
    renderGroup_no_newline g (h g (by simp)) l (by simpa [renderLines] using hl)
  | g :: g2 :: gs, h, l, hl => by
    rw [renderLines] at hl
    rcases List.mem_append.mp hl with hl1 | hl2
    · exact renderGroup_no_newline g (h g (by simp)) l hl1
    · rcases List.mem_cons.mp hl2 with rfl | hl3
      · simp
      · exact renderLines_no_newline (g2 :: gs)
          (fun x hx => h x (List.mem_cons_of_mem _ hx)) l hl3

/-- C1: for every well-formed porcelain worktree-listing text, the parser
of `GitService.list_worktrees` returns one record per group, in input
order, with path, head and branch (normalized from `refs/heads/<name>` to
`<name>`) reconstructed exactly; a group with no `branch` line yields
`branch = none` (never the empty string, by construction of the rendered
group); and the final group is emitted although the rendered listing ends
without a trailing blank line. -/
theorem c1_parser_round_trip (gs : List WorktreeInfo)
    (h : ∀ g ∈ gs, wfGroup g) : list_worktrees (renderListing gs) = gs := by
  cases gs with
  | nil => rfl
  | cons g gs2 =>
    unfold list_worktrees renderListing
    rw [splitLines_joinLines _ (renderLines_ne_nil _ (by simp))
      (renderLines_no_newline _ h), scan_renderLines_end _ none h]

/-- Concrete listing used to witness C1: one branch-carrying record and
one detached record. -/
def c1Groups : List WorktreeInfo :=
  [⟨lit "/repos/app", lit "0123abcd", some (lit "main")⟩,
   ⟨lit "/repos/app-wt2", lit "feedbeef", none⟩]

/-- Witness for C1 at a concrete two-record listing. -/
theorem c1_parser_round_trip_witness :
    (∀ g ∈ c1Groups, wfGroup g) ∧ list_worktrees (renderListing c1Groups) = c1Groups :=
  ⟨by decide, c1_parser_round_trip c1Groups (by decide)⟩

/-- A line that can set neither the pending path nor the pending head:
it carries neither the `worktree ` nor the `HEAD ` label.  A maximal block
of such lines is a record missing both its path and its head. -/
def junkLine (l : PyStr) : Prop :=
  pyStartswith wtLinePre (pyStrip l) = false ∧
    pyStartswith headLinePre (pyStrip l) = false

instance (l : PyStr) : Decidable (junkLine l) := by unfold junkLine; infer_instance

theorem scan_junk_step (l : PyStr) (rest : List PyStr) (cb : Option PyStr)
    (h1 : pyStartswith wtLinePre (pyStrip l) = false)
    (h2 : pyStartswith headLinePre (pyStrip l) = false) :
    scanWorktrees (l :: rest) none none cb =
      if pyStartswith branchLinePre (pyStrip l) then
        scanWorktrees rest none none
          (some (replaceRefsHeads (List.drop 7 (pyStrip l))))
      else scanWorktrees rest none none cb := by
  rw [scanWorktrees]
  simp [h1, h2, truthyStr]

theorem scan_junk :
    ∀ (J rest : List PyStr) (cb : Option PyStr), (∀ l ∈ J, junkLine l) →
      ∃ cb2, scanWorktrees (J ++ rest) none none cb =
        scanWorktrees rest none none cb2
  | [], rest, cb, _ => ⟨cb, rfl⟩
  | l :: J, rest, cb, h => by
    obtain ⟨h1, h2⟩ := h l (by simp)
    have htail : ∀ x ∈ J, junkLine x := fun x hx => h x (List.mem_cons_of_mem _ hx)
    rw [List.cons_append, scan_junk_step l (J ++ rest) cb h1 h2]
    by_cases hbr : pyStartswith branchLinePre (pyStrip l) = true
    · obtain ⟨cb2, e⟩ := scan_junk J rest
        (some (replaceRefsHeads (List.drop 7 (pyStrip l)))) htail
      exact ⟨cb2, by rw [if_pos hbr, e]⟩
    · obtain ⟨cb2, e⟩ := scan_junk J rest cb htail
      exact ⟨cb2, by rw [if_neg hbr, e]⟩

/-- C9: a malformed record — a group of lines that sets neither a path nor
a head — contributes no output record and is dropped silently, while the
well-formed groups around it are still parsed and returned; the parser (a
total function) never aborts the listing. -/
theorem c9_malformed_group_dropped (gs1 gs2 : List WorktreeInfo)
    (J : List PyStr) (h1 : ∀ g ∈ gs1, wfGroup g) (h2 : ∀ g ∈ gs2, wfGroup g)
    (hJ : ∀ l ∈ J, junkLine l) (hJn : ∀ l ∈ J, '\n' ∉ l) :
    list_worktrees (joinLines
        (renderLines gs1 ++ ([] :: (J ++ ([] :: renderLines gs2))))) =
      gs1 ++ gs2 := by
  unfold list_worktrees
  rw [splitLines_joinLines]
  · have tailEq : scanWorktrees (J ++ ([] :: renderLines gs2)) none none none =
        gs2 := by
      obtain ⟨cb2, e⟩ := scan_junk J ([] :: renderLines gs2) none hJ
      rw [e, scan_blank_skip, scan_renderLines_end _ cb2 h2]
    cases gs1 with
    | nil =>
      rw [renderLines, List.nil_append, scan_blank_skip, tailEq, List.nil_append]
    | cons g gs1' =>
      rw [scan_renderLines_mid _ _ none h1 (by simp), tailEq]
  · rcases J with _ | ⟨l, J'⟩
    · simp [renderLines, renderGroup]
    · simp
  · intro l hl
    rcases List.mem_append.mp hl with hl1 | hl2
    · exact renderLines_no_newline gs1 h1 l hl1
    · rcases List.mem_cons.mp hl2 with rfl | hl3
      · simp
      · rcases List.mem_append.mp hl3 with hl4 | hl5
        · exact hJn l hl4
        · rcases List.mem_cons.mp hl5 with rfl | hl6
          · simp
          · exact renderLines_no_newline gs2 h2 l hl6

/-- Junk block used to witness C9: a group carrying only a branch line
and an unrecognized line, hence neither path nor head. -/
def c9Junk : List PyStr := [lit "branch refs/heads/zombie", lit "locked reason"]

/-- First well-formed group around the C9 junk block. -/
def c9Gs1 : List WorktreeInfo :=
  [⟨lit "/repos/app", lit "0123abcd", some (lit "main")⟩]

/-- Second well-formed group around the C9 junk block. -/
def c9Gs2 : List WorktreeInfo :=
  [⟨lit "/repos/app-wt2", lit "feedbeef", none⟩]

/-- Witness for C9: the malformed middle group is dropped while both
surrounding groups are parsed. -/
theorem c9_malformed_group_dropped_witness :
    (∀ g ∈ c9Gs1, wfGroup g) ∧ (∀ l ∈ c9Junk, junkLine l) ∧
      list_worktrees (joinLines
          (renderLines c9Gs1 ++ ([] :: (c9Junk ++ ([] :: renderLines c9Gs2))))) =
        c9Gs1 ++ c9Gs2 :=
  ⟨by decide, by decide,
    c9_malformed_group_dropped c9Gs1 c9Gs2 c9Junk (by decide) (by decide)
      (by decide) (by decide)⟩

/-! The catalog data model (`models.py`).  Timestamps are modelled as
integers (only their order matters here); the randomly generated UUID
field is not modelled. -/

/-- `models.py`: `Worktree` catalog record. -/
structure CatalogWorktree where
  name : PyStr
  branch : PyStr
  path : PyStr
  is_archived : Bool
  sort_order : Option Int
  last_modified : Int
deriving DecidableEq, Repr

/-- `models.py`: `Repository` with its owned worktrees. -/
structure Repository where
  name : PyStr
  source_path : PyStr
  worktrees : List CatalogWorktree
deriving DecidableEq, Repr

/-- Strict comparison of the first sort-key component
`w.sort_order if w.sort_order is not None else float("inf")`: a missing
sort order compares greater than every present value and equal to itself. -/
def soLtB (a b : Option Int) : Bool :=
  match a, b with
  | some x, some y => decide (x < y)
  | some _, none => true
  | none, _ => false

/-- The comparison realised by `Repository.active_worktrees`' Python sort
key `(sort_order or inf, -last_modified)`: lexicographic, ascending. -/
def activeKeyLe (a b : CatalogWorktree) : Bool :=
  soLtB a.sort_order b.sort_order ||
    (a.sort_order == b.sort_order &&
      decide ((-a.last_modified : Int) ≤ -b.last_modified))

/-- `Repository.active_worktrees`: non-archived worktrees, stably sorted
by `(sort_order if not None else inf, -last_modified.timestamp())`.
Python's `sorted` is a stable sort, modelled by the stable
`List.mergeSort`. -/
def active_worktrees (r : Repository) : List CatalogWorktree :=
  (r.worktrees.filter (fun w => !w.is_archived)).mergeSort activeKeyLe

/-- The comparison realised by `Repository.archived_worktrees`' sort key
`-last_modified.timestamp()`. -/
def archivedKeyLe (a b : CatalogWorktree) : Bool :=
  decide ((-a.last_modified : Int) ≤ -b.last_modified)

/-- `Repository.archived_worktrees`: archived worktrees sorted by
recency. -/
def archived_worktrees (r : Repository) : List CatalogWorktree :=
  (r.worktrees.filter (fun w => w.is_archived)).mergeSort archivedKeyLe

/-- The active ordering claimed by the spec: `sort_order` ascending with
absent values after every present value; within equal `sort_order`
(including both absent), `last_modified` descending. -/
def activeClaimOrder (a b : CatalogWorktree) : Prop :=
  (soLtB a.sort_order b.sort_order = true) ∨
    (a.sort_order = b.sort_order ∧ b.last_modified ≤ a.last_modified)

/-- The archived ordering claimed by the spec: `last_modified`
descending. -/
def archivedClaimOrder (a b : CatalogWorktree) : Prop :=
  b.last_modified ≤ a.last_modified

theorem activeKeyLe_iff (a b : CatalogWorktree) :
    activeKeyLe a b = true ↔ activeClaimOrder a b := by
  unfold activeKeyLe activeClaimOrder
  simp [neg_le_neg_iff]

theorem soLtB_trans (a b c : Option Int) (h1 : soLtB a b = true)
    (h2 : soLtB b c = true) : soLtB a c = true := by
  cases a <;> cases b <;> cases c <;> (simp [soLtB] at *) <;> omega

theorem activeKeyLe_trans (a b c : CatalogWorktree)
    (hab : activeKeyLe a b = true) (hbc : activeKeyLe b c = true) :
    activeKeyLe a c = true := by
  rw [activeKeyLe_iff] at *
  rcases hab with h1 | ⟨e1, l1⟩ <;> rcases hbc with h2 | ⟨e2, l2⟩
  · exact Or.inl (soLtB_trans _ _ _ h1 h2)
  · exact Or.inl (e2 ▸ h1)
  · exact Or.inl (e1 ▸ h2)
  · exact Or.inr ⟨e1.trans e2, le_trans l2 l1⟩

theorem activeKeyLe_total (a b : CatalogWorktree) :
    (activeKeyLe a b || activeKeyLe b a) = true := by
  rw [Bool.or_eq_true, activeKeyLe_iff, activeKeyLe_iff]
  unfold activeClaimOrder
  rcases h1 : a.sort_order with _ | x <;> rcases h2 : b.sort_order with _ | y <;>
    simp [soLtB] <;> omega

theorem archivedKeyLe_trans (a b c : CatalogWorktree)
    (hab : archivedKeyLe a b = true) (hbc : archivedKeyLe b c = true) :
    archivedKeyLe a c = true := by
  simp [archivedKeyLe] at *
  omega

theorem archivedKeyLe_total (a b : CatalogWorktree) :
    (archivedKeyLe a b || archivedKeyLe b a) = true := by
  simp [archivedKeyLe]
  omega

/-- C4: `active_worktrees` returns exactly the worktrees whose archived
flag is false (archived ones never appear), ordered by `sort_order`
ascending with absent values after every present value, and by
`last_modified` descending within equal `sort_order`; `archived_worktrees`
returns exactly the archived worktrees ordered by `last_modified`
descending. -/
theorem c4_catalog_ordering (r : Repository) :
    (active_worktrees r).Perm (r.worktrees.filter (fun w => !w.is_archived)) ∧
    List.Pairwise activeClaimOrder (active_worktrees r) ∧
    (∀ w ∈ active_worktrees r, w.is_archived = false) ∧
    (archived_worktrees r).Perm (r.worktrees.filter (fun w => w.is_archived)) ∧
    List.Pairwise archivedClaimOrder (archived_worktrees r) := by
  refine ⟨List.mergeSort_perm _ _, ?_, ?_, List.mergeSort_perm _ _, ?_⟩
  · exact (@List.sorted_mergeSort _ activeKeyLe activeKeyLe_trans
      activeKeyLe_total _).imp (fun h => (activeKeyLe_iff _ _).mp h)
  · intro w hw
    have hmem : w ∈ r.worktrees.filter (fun w => !w.is_archived) :=
      (List.mergeSort_perm _ _).subset hw
    simpa using (List.mem_filter.mp hmem).2
  · exact (@List.sorted_mergeSort _ archivedKeyLe archivedKeyLe_trans
      archivedKeyLe_total _).imp
      (fun h => by simpa [archivedClaimOrder, archivedKeyLe] using h)

/-! Command-trace model of `GitService` (`services/git.py`).  An
operation's external effects are the sequence of events it issues; the
behaviour of the external `git` binary is an environment mapping an
argument vector and working directory to `(exit code, stdout, stderr)`.
Filesystem `Path` conversions (`expanduser`, `str`) are the identity on
the already-normalized path strings used here. -/

/-- An external effect issued by a `GitService` operation: a `git`
subprocess invocation, or the `worktree_path.parent.mkdir(parents=True,
exist_ok=True)` filesystem step of `create_worktree`. -/
inductive Event where
  | ensureParentDir (path : PyStr)
  | git (args : List PyStr) (cwd : Option PyStr)
deriving DecidableEq, Repr

/-- The external `git` binary: argument vector and working directory to
`(returncode, raw stdout, raw stderr)`. -/
abbrev GitEnv := List PyStr → Option PyStr → Int × PyStr × PyStr

/-- `GitService._run_git`: run `git` and return the exit code together
with the *stripped* stdout and stderr, recording the issued command. -/
def run_git (env : GitEnv) (args : List PyStr) (cwd : Option PyStr) :
    Event × Int × PyStr × PyStr :=
  (Event.git args cwd, (env args cwd).1, pyStrip (env args cwd).2.1,
    pyStrip (env args cwd).2.2)

/-- `GitError` carrying its message text. -/
structure GitErr where
  msg : PyStr
deriving DecidableEq, Repr

/-- The remote-name parsing of `GitService.list_remotes`:
`[r.strip() for r in stdout.split("\n") if r.strip()]`. -/
def parseRemotes (stdout : PyStr) : List PyStr :=
  ((splitLines stdout).map pyStrip).filter (fun r => !r.isEmpty)

/-- `GitService.list_remotes`: one `git remote` call; nonzero exit raises. -/
def list_remotes (env : GitEnv) (path : PyStr) :
    Event × Except GitErr (List PyStr) :=
  let r := run_git env [lit "remote"] (some path)
  if r.2.1 ≠ 0 then (r.1, .error ⟨lit "Failed to list remotes: " ++ r.2.2.2⟩)
  else (r.1, .ok (parseRemotes r.2.2.1))

/-- `GitService._safe_list_remotes`: swallow the error, returning `[]`. -/
def safe_list_remotes (env : GitEnv) (path : PyStr) : Event × List PyStr :=
  match list_remotes env path with
  | (ev, .error _) => (ev, [])
  | (ev, .ok rs) => (ev, rs)

/-- The first matching `<remote>/` label for a branch name, mirroring the
`for remote in remotes: if branch.startswith(f"{remote}/"): break` loop of
`create_worktree`. -/
def remotePrefixFor (remotes : List PyStr) (branch : PyStr) : Option PyStr :=
  remotes.findSome? (fun r =>
    if pyStartswith (r ++ ['/']) branch then some (r ++ ['/']) else none)

/-- `GitService.create_worktree` (`services/git.py` lines 131–202):
ensure the parent directory, query the remotes, then add the worktree —
with `-b` (plus an upstream clear for a remote-qualified base) when
creating a new branch, with `--track -b <short name>` for an existing
remote-qualified branch, and plainly for an existing local branch.
Returns the issued event trace and the result. -/
def create_worktree (env : GitEnv) (repo_path worktree_path branch : PyStr)
    (new_branch : Bool) (base_branch : Option PyStr) :
    List Event × Except GitErr Unit :=
  let evMk := Event.ensureParentDir worktree_path
  let remR := safe_list_remotes env repo_path
  if new_branch then
    let args := [lit "worktree", lit "add", lit "-b", branch, worktree_path] ++
      (match base_branch with | some bb => [bb] | none => [])
    let r := run_git env args (some repo_path)
    let unsetEvs :=
      if r.2.1 = 0 then
        match base_branch with
        | some bb =>
          if remR.2.any (fun rem => pyStartswith (rem ++ ['/']) bb) then
            [(run_git env [lit "branch", lit "--unset-upstream", branch]
              (some worktree_path)).1]
          else []
        | none => []
      else []
    if r.2.1 ≠ 0 then
      ([evMk, remR.1, r.1] ++ unsetEvs,
        .error ⟨lit "Failed to create worktree: " ++ r.2.2.2⟩)
    else ([evMk, remR.1, r.1] ++ unsetEvs, .ok ())
  else
    match remotePrefixFor remR.2 branch with
    | some rp =>
      let r := run_git env [lit "worktree", lit "add", lit "--track", lit "-b",
        List.drop rp.length branch, worktree_path, branch] (some repo_path)
      if r.2.1 ≠ 0 then
        ([evMk, remR.1, r.1], .error ⟨lit "Failed to create worktree: " ++ r.2.2.2⟩)
      else ([evMk, remR.1, r.1], .ok ())
    | none =>
      let r := run_git env [lit "worktree", lit "add", worktree_path, branch]
        (some repo_path)
      if r.2.1 ≠ 0 then
        ([evMk, remR.1, r.1], .error ⟨lit "Failed to create worktree: " ++ r.2.2.2⟩)
      else ([evMk, remR.1, r.1], .ok ())

/-- `GitService.remove_worktree`: plain removal; on nonzero exit, when not
already forced, one recursive retry with `--force`; a forced failure
raises with the diagnostic text. -/
def remove_worktree (env : GitEnv) (repo_path worktree_path : PyStr)
    (force : Bool) : List Event × Except GitErr Unit :=
  let args := [lit "worktree", lit "remove"] ++
    (if force then [lit "--force"] else []) ++ [worktree_path]
  let r := run_git env args (some repo_path)
  if r.2.1 ≠ 0 then
    if force then
      ([r.1], .error ⟨lit "Failed to remove worktree: " ++ r.2.2.2⟩)
    else
      let retry := remove_worktree env repo_path worktree_path true
      (r.1 :: retry.1, retry.2)
  else ([r.1], .ok ())
termination_by (if force then 0 else 1)
decreasing_by simp_all

/-- `GitService.rename_branch`: a single `git branch -m` call. -/
def rename_branch (env : GitEnv) (path old_name new_name : PyStr) :
    List Event × Except GitErr Unit :=
  let r := run_git env [lit "branch", lit "-m", old_name, new_name] (some path)
  ([r.1], if r.2.1 ≠ 0 then .error ⟨lit "Failed to rename branch: " ++ r.2.2.2⟩
    else .ok ())

/-- `GitService.repair_worktree`: a single `git worktree repair` call. -/
def repair_worktree (env : GitEnv) (repo_path worktree_path : PyStr) :
    List Event × Except GitErr Unit :=
  let r := run_git env [lit "worktree", lit "repair", worktree_path]
    (some repo_path)
  ([r.1], if r.2.1 ≠ 0 then .error ⟨lit "Failed to repair worktree: " ++ r.2.2.2⟩
    else .ok ())

/-- The detached-HEAD sentinel label `"HEAD"`. -/
def headSentinel : PyStr := lit "HEAD"

/-- `GitService.get_current_branch`: one `git branch --show-current` call;
empty (stripped) output — a detached HEAD — yields the sentinel `"HEAD"`
via Python's `stdout or "HEAD"`. -/
def get_current_branch (env : GitEnv) (path : PyStr) :
    List Event × Except GitErr PyStr :=
  let r := run_git env [lit "branch", lit "--show-current"] (some path)
  ([r.1], if r.2.1 ≠ 0 then
      .error ⟨lit "Failed to get current branch: " ++ r.2.2.2⟩
    else .ok (if r.2.2.1.isEmpty then headSentinel else r.2.2.1))

theorem list_remotes_fst (env : GitEnv) (path : PyStr) :
    (list_remotes env path).1 = Event.git [lit "remote"] (some path) := by
  unfold list_remotes run_git
  dsimp only
  split <;> rfl

theorem safe_list_remotes_fst (env : GitEnv) (path : PyStr) :
    (safe_list_remotes env path).1 = Event.git [lit "remote"] (some path) := by
  have h := list_remotes_fst env path
  unfold safe_list_remotes
  rcases he : list_remotes env path with ⟨ev, res⟩
  rw [he] at h
  cases res <;> simpa using h

/-- C2: `create_worktree` with `new_branch = true` and a base branch that
starts with a known remote name followed by `/` issues, after the
successful `worktree add -b`, an explicit `branch --unset-upstream` on the
new branch (run inside the new worktree); the trace is exactly remote
query, add, upstream-clear, so the new branch is not left tracking the
remote base. -/
theorem c2_new_branch_remote_base_unsets_upstream (env : GitEnv)
    (rp wp branch bb : PyStr)
    (hrem : (safe_list_remotes env rp).2.any
      (fun rem => pyStartswith (rem ++ ['/']) bb) = true)
    (hcode : (env [lit "worktree", lit "add", lit "-b", branch, wp, bb]
      (some rp)).1 = 0) :
    create_worktree env rp wp branch true (some bb) =
      ([Event.ensureParentDir wp, Event.git [lit "remote"] (some rp),
        Event.git [lit "worktree", lit "add", lit "-b", branch, wp, bb] (some rp),
        Event.git [lit "branch", lit "--unset-upstream", branch] (some wp)],
       .ok ()) := by
  unfold create_worktree run_git
  simp [hrem, hcode, safe_list_remotes_fst]

/-- Environment used by the C2 and C5 witnesses: one remote `origin`,
every command succeeding. -/
def envOk : GitEnv := fun args _ =>
  if args = [lit "remote"] then (0, lit "origin", []) else (0, [], [])

/-- Witness for C2 at a concrete environment with remote `origin` and
base `origin/main`. -/
theorem c2_new_branch_remote_base_unsets_upstream_witness :
    (safe_list_remotes envOk (lit "/repo")).2.any
      (fun rem => pyStartswith (rem ++ ['/']) (lit "origin/main")) = true ∧
    create_worktree envOk (lit "/repo") (lit "/forest/feature-x")
        (lit "feature-x") true (some (lit "origin/main")) =
      ([Event.ensureParentDir (lit "/forest/feature-x"),
        Event.git [lit "remote"] (some (lit "/repo")),
        Event.git [lit "worktree", lit "add", lit "-b", lit "feature-x",
          lit "/forest/feature-x", lit "origin/main"] (some (lit "/repo")),
        Event.git [lit "branch", lit "--unset-upstream", lit "feature-x"]
          (some (lit "/forest/feature-x"))], .ok ()) :=
  ⟨by decide, c2_new_branch_remote_base_unsets_upstream envOk _ _ _ _
    (by decide) (by decide)⟩

/-- C5: `create_worktree` with `new_branch = false` and a branch name
starting with a known remote name followed by `/` issues a single
`worktree add --track -b <short name>` bound to the remote ref, where the
short name is the part after the remote label — a named local tracking
branch, not a detached checkout.  The matched label is indeed
`<known remote>/` and a proper lead of the branch name. -/
theorem c5_existing_remote_branch_tracks (env : GitEnv)
    (rp wp branch rpre : PyStr)
    (hpre : remotePrefixFor (safe_list_remotes env rp).2 branch = some rpre)
    (hcode : (env [lit "worktree", lit "add", lit "--track", lit "-b",
      List.drop rpre.length branch, wp, branch] (some rp)).1 = 0) :
    create_worktree env rp wp branch false none =
      ([Event.ensureParentDir wp, Event.git [lit "remote"] (some rp),
        Event.git [lit "worktree", lit "add", lit "--track", lit "-b",
          List.drop rpre.length branch, wp, branch] (some rp)], .ok ()) ∧
    (∃ rem ∈ (safe_list_remotes env rp).2, rpre = rem ++ ['/']) ∧
    pyStartswith rpre branch = true := by
  obtain ⟨rem, hmem, hf⟩ := List.exists_of_findSome?_eq_some hpre
  have hcond : pyStartswith (rem ++ ['/']) branch = true := by
    by_cases hc : pyStartswith (rem ++ ['/']) branch = true
    · exact hc
    · rw [if_neg hc] at hf
      exact absurd hf (by simp)
  have hrp : rpre = rem ++ ['/'] := by
    rw [if_pos hcond] at hf
    exact (Option.some.injEq _ _).mp hf.symm ▸ rfl
  refine ⟨?_, ⟨rem, hmem, hrp⟩, hrp ▸ hcond⟩
  unfold create_worktree run_git
  simp [hpre, hcode, safe_list_remotes_fst]

/-- Witness for C5 at a concrete environment with remote `origin` and
existing branch `origin/feature`. -/
theorem c5_existing_remote_branch_tracks_witness :
    remotePrefixFor (safe_list_remotes envOk (lit "/repo")).2
        (lit "origin/feature") = some (lit "origin/") ∧
    (create_worktree envOk (lit "/repo") (lit "/forest/feature")
        (lit "origin/feature") false none =
      ([Event.ensureParentDir (lit "/forest/feature"),
        Event.git [lit "remote"] (some (lit "/repo")),
        Event.git [lit "worktree", lit "add", lit "--track", lit "-b",
          List.drop (lit "origin/").length (lit "origin/feature"),
          lit "/forest/feature", lit "origin/feature"] (some (lit "/repo"))],
       .ok ()) ∧
    (∃ rem ∈ (safe_list_remotes envOk (lit "/repo")).2,
      lit "origin/" = rem ++ ['/']) ∧
    pyStartswith (lit "origin/") (lit "origin/feature") = true) :=
  ⟨by decide, c5_existing_remote_branch_tracks envOk _ _ _ _
    (by decide) (by decide)⟩

theorem remove_worktree_force_trace (env : GitEnv) (rp wp : PyStr) :
    (remove_worktree env rp wp true).1 =
      [Event.git [lit "worktree", lit "remove", lit "--force", wp] (some rp)] := by
  rw [remove_worktree]
  simp [run_git]
  split <;> rfl

theorem remove_worktree_trace_len (env : GitEnv) (rp wp : PyStr) (force : Bool) :
    (remove_worktree env rp wp force).1.length ≤ 2 := by
  cases force with
  | true => rw [remove_worktree_force_trace]; simp
  | false =>
    rw [remove_worktree]
    simp [run_git, remove_worktree_force_trace]
    split <;> simp

theorem create_worktree_trace_nodup (env : GitEnv) (rp wp branch : PyStr)
    (nb : Bool) (bb : Option PyStr) :
    (create_worktree env rp wp branch nb bb).1.Nodup := by
  have hrem := safe_list_remotes_fst env rp
  have h1 : lit "remote" ≠ lit "worktree" := by decide
  have h2 : lit "remote" ≠ lit "branch" := by decide
  have h3 : lit "worktree" ≠ lit "branch" := by decide
  unfold create_worktree run_git
  repeat' split
  all_goals try simp_all [List.nodup_cons, h1, h2, h3]
  all_goals try (repeat' split)
  all_goals simp_all [List.nodup_cons, h1, h2, h3]

/-- C3: `remove_worktree` without `force`: a zero-exit plain removal ends
the operation after that single command; a nonzero exit triggers exactly
one `--force` retry; a nonzero forced exit raises a `GitError` carrying
the forced command's diagnostic text; the trace never exceeds two
commands (no third attempt), and no other modelled operation re-issues a
command — `rename_branch`, `repair_worktree` and `get_current_branch`
each issue exactly one, and `create_worktree`'s trace has no duplicate
event. -/
theorem c3_remove_single_escalation :
    (∀ (env : GitEnv) (rp wp : PyStr),
      (env [lit "worktree", lit "remove", wp] (some rp)).1 = 0 →
        remove_worktree env rp wp false =
          ([Event.git [lit "worktree", lit "remove", wp] (some rp)], .ok ())) ∧
    (∀ (env : GitEnv) (rp wp : PyStr),
      (env [lit "worktree", lit "remove", wp] (some rp)).1 ≠ 0 →
      (env [lit "worktree", lit "remove", lit "--force", wp] (some rp)).1 = 0 →
        remove_worktree env rp wp false =
          ([Event.git [lit "worktree", lit "remove", wp] (some rp),
            Event.git [lit "worktree", lit "remove", lit "--force", wp]
              (some rp)], .ok ())) ∧
    (∀ (env : GitEnv) (rp wp : PyStr),
      (env [lit "worktree", lit "remove", wp] (some rp)).1 ≠ 0 →
      (env [lit "worktree", lit "remove", lit "--force", wp] (some rp)).1 ≠ 0 →
        remove_worktree env rp wp false =
          ([Event.git [lit "worktree", lit "remove", wp] (some rp),
            Event.git [lit "worktree", lit "remove", lit "--force", wp]
              (some rp)],
           .error ⟨lit "Failed to remove worktree: " ++
             pyStrip (env [lit "worktree", lit "remove", lit "--force", wp]
               (some rp)).2.2⟩)) ∧
    (∀ (env : GitEnv) (rp wp : PyStr) (force : Bool),
      (remove_worktree env rp wp force).1.length ≤ 2) ∧
    (∀ (env : GitEnv) (p a b : PyStr), (rename_branch env p a b).1.length = 1) ∧
    (∀ (env : GitEnv) (rp wp : PyStr),
      (repair_worktree env rp wp).1.length = 1) ∧
    (∀ (env : GitEnv) (p : PyStr), (get_current_branch env p).1.length = 1) ∧
    (∀ (env : GitEnv) (rp wp branch : PyStr) (nb : Bool) (bb : Option PyStr),
      (create_worktree env rp wp branch nb bb).1.Nodup) := by
  refine ⟨?_, ?_, ?_, remove_worktree_trace_len, ?_, ?_, ?_,
    create_worktree_trace_nodup⟩
  · intro env rp wp h
    rw [remove_worktree]
    simp [run_git, h]
  · intro env rp wp h1 h2
    rw [remove_worktree, remove_worktree]
    simp [run_git, h1, h2]
  · intro env rp wp h1 h2
    rw [remove_worktree, remove_worktree]
    simp [run_git, h1, h2]
  · intro env p a b; rfl
  · intro env rp wp; rfl
  · intro env p; rfl

/-- Environment for the C3 witness: every removal attempt fails. -/
def envRm : GitEnv := fun _ _ => (1, [], lit "fatal: locked")

/-- Witness for C3 at a concrete environment where both the plain and the
forced removal fail: exactly two commands, then a typed error carrying
the forced command's diagnostic text. -/
theorem c3_remove_single_escalation_witness :
    (envRm [lit "worktree", lit "remove", lit "/w"] (some (lit "/r"))).1 ≠ 0 ∧
    (envRm [lit "worktree", lit "remove", lit "--force", lit "/w"]
      (some (lit "/r"))).1 ≠ 0 ∧
    remove_worktree envRm (lit "/r") (lit "/w") false =
      ([Event.git [lit "worktree", lit "remove", lit "/w"] (some (lit "/r")),
        Event.git [lit "worktree", lit "remove", lit "--force", lit "/w"]
          (some (lit "/r"))],
       .error ⟨lit "Failed to remove worktree: " ++
         pyStrip (envRm [lit "worktree", lit "remove", lit "--force", lit "/w"]
           (some (lit "/r"))).2.2⟩) :=
  ⟨by decide, by decide,
    c3_remove_single_escalation.2.2.1 envRm (lit "/r") (lit "/w")
      (by decide) (by decide)⟩

/-! The rename-worktree orchestration of
`ForestApp.on_worktree_detail_rename_worktree_requested` (`app.py` lines
290–318), for a found worktree.  Its effectful steps — directory rename,
`git worktree repair`, Claude-session migration — are recorded as trace
steps, with each step's outcome (success, or the message of the caught
`OSError`/`GitError`) a parameter of the model. -/

/-- One orchestration step of the rename handler. -/
inductive RenameStep where
  | renameDir (old new : PyStr)
  | repairGit (repo_source new : PyStr)
  | migrateSessions (old new : PyStr)
  | updateCatalog (name path : PyStr)
  | notify (msg : PyStr)
deriving DecidableEq, Repr

/-- `pathlib` `Path(p).parent` on a normalized path string: everything
before the final `/`-separated component. -/
def parentDir (p : PyStr) : PyStr :=
  ((p.reverse.dropWhile (fun c => c ≠ '/')).dropWhile (fun c => c = '/')).reverse

/-- `old_path.parent / new_name`: the sibling destination path. -/
def parentJoin (p new_name : PyStr) : PyStr := parentDir p ++ '/' :: new_name

/-- The rename handler: refuse if the destination exists; otherwise
rename the directory, repair the git back-reference, migrate sessions and
update the catalog record, stopping (with an error notification and no
rollback) at the first failing step.  Returns the step trace and the
resulting catalog record. -/
def rename_worktree_handler (repo_source : PyStr) (wt : CatalogWorktree)
    (new_name : PyStr) (dest_exists : Bool)
    (rename_res repair_res migrate_res : Except PyStr Unit) :
    List RenameStep × CatalogWorktree :=
  let old_path := wt.path
  let new_path := parentJoin wt.path new_name
  if dest_exists then
    ([RenameStep.notify (lit "Path already exists")], wt)
  else
    match rename_res with
    | .error e =>
      ([RenameStep.renameDir old_path new_path,
        RenameStep.notify (lit "Rename failed: " ++ e)], wt)
    | .ok _ =>
      match repair_res with
      | .error e =>
        ([RenameStep.renameDir old_path new_path,
          RenameStep.repairGit repo_source new_path,
          RenameStep.notify (lit "Rename failed: " ++ e)], wt)
      | .ok _ =>
        match migrate_res with
        | .error e =>
          ([RenameStep.renameDir old_path new_path,
            RenameStep.repairGit repo_source new_path,
            RenameStep.migrateSessions old_path new_path,
            RenameStep.notify (lit "Rename failed: " ++ e)], wt)
        | .ok _ =>
          ([RenameStep.renameDir old_path new_path,
            RenameStep.repairGit repo_source new_path,
            RenameStep.migrateSessions old_path new_path,
            RenameStep.updateCatalog new_name new_path],
           { wt with name := new_name, path := new_path })

/-- C6: when a filesystem entry already exists at the computed sibling
destination, the rename handler refuses up front: the trace is one error
notification — no directory move, no repair command, no session
migration, no catalog update — and the catalog record keeps its name and
path. -/
theorem c6_rename_refuses_existing_dest (repo_source : PyStr)
    (wt : CatalogWorktree) (new_name : PyStr)
    (r1 r2 r3 : Except PyStr Unit) :
    rename_worktree_handler repo_source wt new_name true r1 r2 r3 =
      ([RenameStep.notify (lit "Path already exists")], wt) ∧
    (∀ s ∈ (rename_worktree_handler repo_source wt new_name true r1 r2 r3).1,
      ∀ a b : PyStr, s ≠ RenameStep.renameDir a b ∧ s ≠ RenameStep.repairGit a b ∧
        s ≠ RenameStep.migrateSessions a b ∧ s ≠ RenameStep.updateCatalog a b) ∧
    (rename_worktree_handler repo_source wt new_name true r1 r2 r3).2.name =
      wt.name ∧
    (rename_worktree_handler repo_source wt new_name true r1 r2 r3).2.path =
      wt.path := by
  refine ⟨rfl, ?_, rfl, rfl⟩
  intro s hs a b
  simp only [rename_worktree_handler, if_true, List.mem_singleton] at hs
  subst hs
  refine ⟨by simp, by simp, by simp, by simp⟩

/-- Witness for C6 at concrete inputs. -/
theorem c6_rename_refuses_existing_dest_witness :
    rename_worktree_handler (lit "/repo")
        ⟨lit "old", lit "feat/x", lit "/forest/old", false, none, 5⟩
        (lit "new") true (.ok ()) (.ok ()) (.ok ()) =
      ([RenameStep.notify (lit "Path already exists")],
       ⟨lit "old", lit "feat/x", lit "/forest/old", false, none, 5⟩) :=
  (c6_rename_refuses_existing_dest (lit "/repo")
    ⟨lit "old", lit "feat/x", lit "/forest/old", false, none, 5⟩
    (lit "new") (.ok ()) (.ok ()) (.ok ())).1

/-- C7: when the directory rename succeeds but the repair step fails, the
handler reports an error and rolls nothing back — the trace is exactly
rename, repair, error notification (the only directory move is the
forward one, and no catalog update step is reached), and the catalog
record keeps its old name and path; an invocation that fails before the
directory rename (the destination-exists refusal) mutates no store. -/
theorem c7_rename_partial_failure (repo_source : PyStr) (wt : CatalogWorktree)
    (new_name e : PyStr) (mr : Except PyStr Unit) :
    rename_worktree_handler repo_source wt new_name false (.ok ())
        (.error e) mr =
      ([RenameStep.renameDir wt.path (parentJoin wt.path new_name),
        RenameStep.repairGit repo_source (parentJoin wt.path new_name),
        RenameStep.notify (lit "Rename failed: " ++ e)], wt) ∧
    (∀ a b : PyStr, RenameStep.renameDir a b ∈
        (rename_worktree_handler repo_source wt new_name false (.ok ())
          (.error e) mr).1 →
      a = wt.path ∧ b = parentJoin wt.path new_name) ∧
    (∀ n p : PyStr, RenameStep.updateCatalog n p ∉
      (rename_worktree_handler repo_source wt new_name false (.ok ())
        (.error e) mr).1) ∧
    (rename_worktree_handler repo_source wt new_name false (.ok ())
      (.error e) mr).2 = wt ∧
    (∀ r1 r2 r3 : Except PyStr Unit,
      (rename_worktree_handler repo_source wt new_name true r1 r2 r3).2 = wt) := by
  have htr : (rename_worktree_handler repo_source wt new_name false (.ok ())
      (.error e) mr).1 =
      [RenameStep.renameDir wt.path (parentJoin wt.path new_name),
       RenameStep.repairGit repo_source (parentJoin wt.path new_name),
       RenameStep.notify (lit "Rename failed: " ++ e)] := rfl
  refine ⟨rfl, ?_, ?_, rfl, fun r1 r2 r3 => rfl⟩
  · intro a b hmem
    rw [htr] at hmem
    simp only [List.mem_cons, List.not_mem_nil, or_false] at hmem
    rcases hmem with h | h | h
    · injection h with h1 h2
      exact ⟨h1, h2⟩
    · exact absurd h (by simp)
    · exact absurd h (by simp)
  · intro n p hmem
    rw [htr] at hmem
    simp at hmem

/-- Witness for C7 at concrete inputs. -/
theorem c7_rename_partial_failure_witness :
    rename_worktree_handler (lit "/repo")
        ⟨lit "old", lit "feat/x", lit "/forest/old", false, none, 5⟩
        (lit "new") false (.ok ()) (.error (lit "boom")) (.ok ()) =
      ([RenameStep.renameDir (lit "/forest/old")
          (parentJoin (lit "/forest/old") (lit "new")),
        RenameStep.repairGit (lit "/repo")
          (parentJoin (lit "/forest/old") (lit "new")),
        RenameStep.notify (lit "Rename failed: " ++ lit "boom")],
       ⟨lit "old", lit "feat/x", lit "/forest/old", false, none, 5⟩) :=
  (c7_rename_partial_failure (lit "/repo")
    ⟨lit "old", lit "feat/x", lit "/forest/old", false, none, 5⟩
    (lit "new") (lit "boom") (.ok ())).1

/-! `ForestApp._import_existing_worktrees` (`app.py` lines 590–616).
Filesystem path resolution (`Path.resolve`, which follows symlinks) is an
abstract parameter; path strings are taken as already normalized, so
`str(Path(s))` is the identity; the fresh `last_modified` timestamp is a
parameter. -/

/-- `pathlib` `Path(p).name` on a normalized path string: the final
`/`-separated component. -/
def pathName (p : PyStr) : PyStr :=
  (((splitOnChar '/' p).filter (fun c => !c.isEmpty)).getLastD [])

/-- Python's `x or d` on an optional string: `None` and `""` both give
`d`. -/
def pyOrStr (o : Option PyStr) (d : PyStr) : PyStr :=
  match o with
  | none => d
  | some s => if s.isEmpty then d else s

/-- The catalog record synthesized for one imported worktree:
`Worktree(name=wt_path.name, branch=wt_info.branch or "HEAD",
path=str(wt_path))` with the model defaults of a fresh record. -/
def mkImportedWorktree (now : Int) (wi : WorktreeInfo) : CatalogWorktree :=
  { name := pathName wi.path, branch := pyOrStr wi.branch headSentinel,
    path := wi.path, is_archived := false, sort_order := none,
    last_modified := now }

/-- `ForestApp._import_existing_worktrees`' loop over the listed
worktrees: skip the entry resolving to the repository's own source path,
skip entries whose path string starts with the managed forest root, and
add one catalog record for each remaining entry, in listing order. -/
def import_existing_worktrees (resolve : PyStr → PyStr)
    (source_path forest_dir : PyStr) (now : Int) :
    List WorktreeInfo → List CatalogWorktree
  | [] => []
  | wi :: rest =>
    if resolve wi.path = resolve source_path then
      import_existing_worktrees resolve source_path forest_dir now rest
    else if pyStartswith forest_dir wi.path then
      import_existing_worktrees resolve source_path forest_dir now rest
    else
      mkImportedWorktree now wi ::
        import_existing_worktrees resolve source_path forest_dir now rest

/-- C8: the import adds exactly the listed entries whose resolved path
differs from the repository's resolved source path and whose path does
not lie under the managed storage root (a string-prefix test in the
code), one catalog record each, in order; in particular a listing of
three worktrees — the primary checkout, one under the managed root, one
external — adds exactly one record. -/
theorem c8_import_exactly_external (resolve : PyStr → PyStr) (sp fd : PyStr)
    (now : Int) :
    (∀ infos : List WorktreeInfo,
      import_existing_worktrees resolve sp fd now infos =
        (infos.filter (fun wi => !(resolve wi.path == resolve sp) &&
          !(pyStartswith fd wi.path))).map (mkImportedWorktree now)) ∧
    (∀ i1 i2 i3 : WorktreeInfo,
      resolve i1.path = resolve sp →
      resolve i2.path ≠ resolve sp → pyStartswith fd i2.path = true →
      resolve i3.path ≠ resolve sp → pyStartswith fd i3.path = false →
      (import_existing_worktrees resolve sp fd now [i1, i2, i3]).length = 1) := by
  have hgen : ∀ infos : List WorktreeInfo,
      import_existing_worktrees resolve sp fd now infos =
        (infos.filter (fun wi => !(resolve wi.path == resolve sp) &&
          !(pyStartswith fd wi.path))).map (mkImportedWorktree now) := by
    intro infos
    induction infos with
    | nil => rfl
    | cons wi rest ih =>
      by_cases h1 : resolve wi.path = resolve sp
      · simp [import_existing_worktrees, List.filter_cons, h1, ih]
      · by_cases h2 : pyStartswith fd wi.path = true
        · simp [import_existing_worktrees, List.filter_cons, h1, h2, ih]
        · simp [import_existing_worktrees, List.filter_cons, h1, h2, ih]
  refine ⟨hgen, ?_⟩
  intro i1 i2 i3 h1 h2 h3 h4 h5
  rw [hgen [i1, i2, i3]]
  simp [List.filter_cons, h1, h2, h3, h4, h5]

/-- Resolver for the C8 witness: the identity (no symlinks). -/
def idResolve : PyStr → PyStr := fun p => p

/-- Witness for C8: primary checkout `/repo`, one worktree under the
managed root `/forest`, one external worktree — exactly one record
added. -/
theorem c8_import_exactly_external_witness :
    idResolve (lit "/repo") = idResolve (lit "/repo") ∧
    pyStartswith (lit "/forest") (lit "/forest/a") = true ∧
    pyStartswith (lit "/forest") (lit "/elsewhere/b") = false ∧
    (import_existing_worktrees idResolve (lit "/repo") (lit "/forest") 7
      [⟨lit "/repo", lit "h1", some (lit "main")⟩,
       ⟨lit "/forest/a", lit "h2", some (lit "feat")⟩,
       ⟨lit "/elsewhere/b", lit "h3", none⟩]).length = 1 :=
  ⟨rfl, by decide, by decide,
    (c8_import_exactly_external idResolve (lit "/repo") (lit "/forest") 7).2
      ⟨lit "/repo", lit "h1", some (lit "main")⟩
      ⟨lit "/forest/a", lit "h2", some (lit "feat")⟩
      ⟨lit "/elsewhere/b", lit "h3", none⟩
      rfl (by decide) (by decide) (by decide) (by decide)⟩

/-- C10: the detached-worktree sentinel label is the exact string
`"HEAD"`: the import assigns it as `branch` whenever the VCS-reported
branch is absent, and `get_current_branch` returns it whenever the query
exits zero with empty (stripped) output. -/
theorem c10_head_sentinel :
    headSentinel = lit "HEAD" ∧
    (∀ (now : Int) (wi : WorktreeInfo), wi.branch = none →
      (mkImportedWorktree now wi).branch = lit "HEAD") ∧
    (∀ (env : GitEnv) (path : PyStr),
      (env [lit "branch", lit "--show-current"] (some path)).1 = 0 →
      pyStrip (env [lit "branch", lit "--show-current"] (some path)).2.1 = [] →
      (get_current_branch env path).2 = .ok (lit "HEAD")) := by
  refine ⟨rfl, ?_, ?_⟩
  · intro now wi h
    simp [mkImportedWorktree, pyOrStr, h, headSentinel]
  · intro env path h1 h2
    simp [get_current_branch, run_git, h1, h2, headSentinel]

/-- Environment for the C10 witness: the current-branch query succeeds
with empty output (detached HEAD). -/
def envDetached : GitEnv := fun _ _ => (0, [], [])

/-- Detached listing record for the C10 witness. -/
def wiDetached : WorktreeInfo := ⟨lit "/w", lit "abc123", none⟩

/-- Witness for C10 at a concrete detached record and environment. -/
theorem c10_head_sentinel_witness :
    wiDetached.branch = none ∧
    (mkImportedWorktree 0 wiDetached).branch = lit "HEAD" ∧
    (envDetached [lit "branch", lit "--show-current"] (some (lit "/w"))).1 = 0 ∧
    (get_current_branch envDetached (lit "/w")).2 = .ok (lit "HEAD") :=
  ⟨rfl, c10_head_sentinel.2.1 0 wiDetached rfl, by decide,
    c10_head_sentinel.2.2 envDetached (lit "/w") (by decide) (by decide)⟩

end Forestui
